import Mathlib

/-
Verification of the mortem library (src/lib.rs): a Guard whose Drop
implementation deletes the running executable.

The operating system is modelled by an environment giving, for each loop
iteration, the result of std::env::current_exe() (an optional path) and
whether std::fs::remove_file succeeds on a given path at that iteration.
The Drop loop is transcribed as a fuel-indexed function that also records
the calls it makes: an outcome of none means the fuel ran out with the
loop still spinning (the block-forever behaviour of hard mode).
-/

namespace Mortem

/-- Paths are abstract strings; the model never inspects them. -/
abbrev Path := String

/-- The Guard struct from src/lib.rs: a single boolean field. -/
structure Guard where
  ensure : Bool
  deriving DecidableEq, Repr

/-- Guard::new from src/lib.rs (the tracing debug call is modelled separately
by Guard.newTraced). -/
def Guard.new (ensure : Bool) : Guard :=
  { ensure := ensure }

/-- Guard::soft from src/lib.rs. -/
def Guard.soft : Guard :=
  Guard.new false

/-- Guard::hard from src/lib.rs. -/
def Guard.hard : Guard :=
  Guard.new true

/-- The free function soft() from src/lib.rs. -/
def soft : Guard :=
  Guard.soft

/-- The free function hard() from src/lib.rs. -/
def hard : Guard :=
  Guard.hard

/-- The operating system as seen by the Drop loop: iteration i of the loop
observes resolve i as the result of current_exe() (none models Err), and
remove i p tells whether remove_file(p) succeeds at iteration i. -/
structure Env where
  resolve : Nat → Option Path
  remove : Nat → Path → Bool

/-- Terminal outcomes of the Drop loop body: the executable was deleted,
the loop broke silently after a removal failure (soft mode), or the routine
panicked (soft mode, resolution failure). -/
inductive Outcome
  | deleted
  | abandonedSilently
  | panicked
  deriving DecidableEq, Repr

/-- Instrumented result of running the Drop loop: the terminal outcome
(none when the fuel was exhausted with the loop still retrying), the number
of loop iterations executed, the number of current_exe() calls, the paths
passed to remove_file in order, and the paths whose removal succeeded. -/
structure RunResult where
  outcome : Option Outcome
  iters : Nat
  resolveCalls : Nat
  removeCalls : List Path
  deletedPaths : List Path
  deriving DecidableEq, Repr

/-- The loop of impl Drop for Guard in src/lib.rs, starting at iteration i
with the given fuel. Each iteration matches on current_exe(): Err with
ensure set retries, Err without ensure panics, Ok(path) calls
remove_file(path) and retries only when that fails with ensure set;
every other case breaks out of the loop. -/
def dropLoop (ensure : Bool) (env : Env) : Nat → Nat → RunResult
  | _, 0 => ⟨none, 0, 0, [], []⟩
  | i, fuel + 1 =>
    match env.resolve i with
    | none =>
      if ensure then
        let r := dropLoop ensure env (i + 1) fuel
        ⟨r.outcome, r.iters + 1, r.resolveCalls + 1, r.removeCalls, r.deletedPaths⟩
      else
        ⟨some Outcome.panicked, 1, 1, [], []⟩
    | some path =>
      if env.remove i path then
        ⟨some Outcome.deleted, 1, 1, [path], [path]⟩
      else if ensure then
        let r := dropLoop ensure env (i + 1) fuel
        ⟨r.outcome, r.iters + 1, r.resolveCalls + 1, path :: r.removeCalls, r.deletedPaths⟩
      else
        ⟨some Outcome.abandonedSilently, 1, 1, [path], []⟩

/-- Drop::drop for Guard: run the loop from iteration 0. -/
def Guard.drop (g : Guard) (env : Env) (fuel : Nat) : RunResult :=
  dropLoop g.ensure env 0 fuel

/-- Iteration i of the loop fully succeeds: current_exe() returns a path
and remove_file on that path succeeds. -/
def iterSucc (env : Env) (i : Nat) : Bool :=
  match env.resolve i with
  | none => false
  | some path => env.remove i path

/-- Diagnostic events emitted when the tracing feature is compiled in,
one per tracing macro call site in src/lib.rs. -/
inductive LogEvent
  | debugCreate (ensure : Bool)
  | debugDrop (ensure : Bool)
  | errorFailed (ensure : Bool)
  | errorRetry (ensure : Bool)
  deriving DecidableEq, Repr

/-- Guard::new with the tracing feature enabled: emits the creation debug
event and builds the same struct. -/
def Guard.newTraced (ensure : Bool) : Guard × List LogEvent :=
  ({ ensure := ensure }, [LogEvent.debugCreate ensure])

/-- The Drop loop with the tracing feature enabled: identical control flow,
additionally collecting the error events emitted in the soft panic branch
and in the hard-mode removal retry branch. -/
def dropLoopTraced (ensure : Bool) (env : Env) : Nat → Nat → RunResult × List LogEvent
  | _, 0 => (⟨none, 0, 0, [], []⟩, [])
  | i, fuel + 1 =>
    match env.resolve i with
    | none =>
      if ensure then
        let r := dropLoopTraced ensure env (i + 1) fuel
        (⟨r.1.outcome, r.1.iters + 1, r.1.resolveCalls + 1, r.1.removeCalls,
          r.1.deletedPaths⟩, r.2)
      else
        (⟨some Outcome.panicked, 1, 1, [], []⟩, [LogEvent.errorFailed ensure])
    | some path =>
      if env.remove i path then
        (⟨some Outcome.deleted, 1, 1, [path], [path]⟩, [])
      else if ensure then
        let r := dropLoopTraced ensure env (i + 1) fuel
        (⟨r.1.outcome, r.1.iters + 1, r.1.resolveCalls + 1, path :: r.1.removeCalls,
          r.1.deletedPaths⟩, LogEvent.errorRetry ensure :: r.2)
      else
        (⟨some Outcome.abandonedSilently, 1, 1, [path], []⟩, [])

/-- Drop::drop with tracing: the entry debug event followed by the loop. -/
def Guard.dropTraced (g : Guard) (env : Env) (fuel : Nat) : RunResult × List LogEvent :=
  let r := dropLoopTraced g.ensure env 0 fuel
  (r.1, LogEvent.debugDrop g.ensure :: r.2)

/-- An environment where current_exe() always fails. -/
def envNoResolve : Env :=
  ⟨fun _ => none, fun _ _ => false⟩

/-- An environment where current_exe() always succeeds but remove_file
always fails. -/
def envNoRemove : Env :=
  ⟨fun _ => some "exe", fun _ _ => false⟩

/-- An environment where resolution always succeeds and removal succeeds
from iteration k onwards (an obstruction cleared after k iterations). -/
def envClearsAt (k : Nat) : Env :=
  ⟨fun _ => some "exe", fun i _ => Nat.ble k i⟩

/-- In soft mode every branch of the loop body breaks or panics, so extra
fuel is never consumed: one unit of fuel gives the final answer. -/
theorem dropLoop_soft_step (env : Env) (i fuel : Nat) :
    dropLoop false env i (fuel + 1) = dropLoop false env i 1 := by
  cases h : env.resolve i with
  | none => simp [dropLoop, h]
  | some p => cases hr : env.remove i p <;> simp [dropLoop, h, hr]

/-- The soft loop with one unit of fuel always reaches a terminal outcome. -/
theorem dropLoop_soft_terminates (env : Env) (i : Nat) :
    ∃ o, (dropLoop false env i 1).outcome = some o := by
  cases h : env.resolve i with
  | none => exact ⟨Outcome.panicked, by simp [dropLoop, h]⟩
  | some p =>
    cases hr : env.remove i p
    · exact ⟨Outcome.abandonedSilently, by simp [dropLoop, h, hr]⟩
    · exact ⟨Outcome.deleted, by simp [dropLoop, h, hr]⟩

/-- In hard mode the only terminal outcome the loop can produce is deleted:
the panic branch and the silent-abandon branch are unreachable. -/
theorem dropLoop_hard_outcome (env : Env) :
    ∀ fuel i o, (dropLoop true env i fuel).outcome = some o → o = Outcome.deleted := by
  intro fuel
  induction fuel with
  | zero => intro i o h; simp [dropLoop] at h
  | succ n ih =>
    intro i o h
    rw [dropLoop] at h
    cases hres : env.resolve i with
    | none =>
      rw [hres] at h
      simp at h
      exact ih (i + 1) o h
    | some p =>
      rw [hres] at h
      cases hr : env.remove i p with
      | true => simp [hr] at h; exact h.symm
      | false => simp [hr] at h; exact ih (i + 1) o h

/-- Once the loop has reached a terminal outcome, adding fuel changes
nothing: the entire instrumented run is stable. -/
theorem dropLoop_stable (e : Bool) (env : Env) :
    ∀ fuel i m o, fuel ≤ m → (dropLoop e env i fuel).outcome = some o →
      dropLoop e env i m = dropLoop e env i fuel := by
  intro fuel
  induction fuel with
  | zero => intro i m o _ h; simp [dropLoop] at h
  | succ n ih =>
    intro i m o hm h
    obtain ⟨m₀, rfl⟩ : ∃ m₀, m = m₀ + 1 := ⟨m - 1, by omega⟩
    have hm₀ : n ≤ m₀ := by omega
    rw [dropLoop] at h ⊢
    rw [dropLoop]
    cases hres : env.resolve i with
    | none =>
      rw [hres] at h
      cases e with
      | false => rfl
      | true =>
        simp at h
        simp [ih (i + 1) m₀ o hm₀ h]
    | some p =>
      rw [hres] at h
      cases hr : env.remove i p with
      | true => simp [hr]
      | false =>
        cases e with
        | false => simp [hr]
        | true =>
          simp [hr] at h
          simp [hr, ih (i + 1) m₀ o hm₀ h]

/-- Every executed iteration of the loop calls current_exe() exactly once:
the resolve-call count equals the iteration count. -/
theorem dropLoop_resolveCalls (e : Bool) (env : Env) :
    ∀ fuel i, (dropLoop e env i fuel).resolveCalls = (dropLoop e env i fuel).iters := by
  intro fuel
  induction fuel with
  | zero => intro i; rfl
  | succ n ih =>
    intro i
    rw [dropLoop]
    cases hres : env.resolve i with
    | none =>
      cases e with
      | false => rfl
      | true => simp [ih (i + 1)]
    | some p =>
      cases hr : env.remove i p with
      | true => simp [hr]
      | false =>
        cases e with
        | false => simp [hr]
        | true => simp [hr, ih (i + 1)]

/-- The paths passed to remove_file are exactly the successful current_exe()
results of the executed iterations, in order: iteration i + j contributes
its own freshly resolved path and nothing else. -/
theorem dropLoop_removeCalls (e : Bool) (env : Env) :
    ∀ fuel i, (dropLoop e env i fuel).removeCalls =
      (List.range' i (dropLoop e env i fuel).iters).filterMap env.resolve := by
  intro fuel
  induction fuel with
  | zero => intro i; rfl
  | succ n ih =>
    intro i
    rw [dropLoop]
    cases hres : env.resolve i with
    | none =>
      cases e with
      | false => simp [List.range'_succ, hres]
      | true => simp [List.range'_succ, List.filterMap_cons, hres, ih (i + 1)]
    | some p =>
      cases hr : env.remove i p with
      | true => simp [hr, List.range'_succ, List.filterMap_cons, hres]
      | false =>
        cases e with
        | false => simp [hr, List.range'_succ, List.filterMap_cons, hres]
        | true => simp [hr, List.range'_succ, List.filterMap_cons, hres, ih (i + 1)]

/-- Every path recorded as deleted was resolved by current_exe() at some
executed iteration and its removal succeeded at that same iteration. -/
theorem dropLoop_deletedPaths (e : Bool) (env : Env) :
    ∀ fuel i p, p ∈ (dropLoop e env i fuel).deletedPaths →
      ∃ j, env.resolve (i + j) = some p ∧ env.remove (i + j) p = true := by
  intro fuel
  induction fuel with
  | zero => intro i p h; simp [dropLoop] at h
  | succ n ih =>
    intro i p h
    rw [dropLoop] at h
    cases hres : env.resolve i with
    | none =>
      rw [hres] at h
      cases e with
      | false => simp at h
      | true =>
        simp at h
        obtain ⟨j, hj₁, hj₂⟩ := ih (i + 1) p h
        exact ⟨j + 1, by rw [show i + (j + 1) = i + 1 + j by omega]; exact hj₁,
          by rw [show i + (j + 1) = i + 1 + j by omega]; exact hj₂⟩
    | some q =>
      rw [hres] at h
      cases hr : env.remove i q with
      | true =>
        simp [hr] at h
        subst h
        exact ⟨0, by simpa using hres, by simpa using hr⟩
      | false =>
        cases e with
        | false => simp [hr] at h
        | true =>
          simp [hr] at h
          obtain ⟨j, hj₁, hj₂⟩ := ih (i + 1) p h
          exact ⟨j + 1, by rw [show i + (j + 1) = i + 1 + j by omega]; exact hj₁,
            by rw [show i + (j + 1) = i + 1 + j by omega]; exact hj₂⟩

/-- Every deleted path was first passed to remove_file. -/
theorem dropLoop_deleted_subset (e : Bool) (env : Env) :
    ∀ fuel i p, p ∈ (dropLoop e env i fuel).deletedPaths →
      p ∈ (dropLoop e env i fuel).removeCalls := by
  intro fuel
  induction fuel with
  | zero => intro i p h; simp [dropLoop] at h
  | succ n ih =>
    intro i p h
    rw [dropLoop] at h ⊢
    cases hres : env.resolve i with
    | none =>
      rw [hres] at h
      cases e with
      | false => simp at h
      | true => simpa using ih (i + 1) p (by simpa using h)
    | some q =>
      rw [hres] at h
      cases hr : env.remove i q with
      | true => simp [hr] at h ⊢; exact h
      | false =>
        cases e with
        | false => simp [hr] at h
        | true =>
          simp [hr] at h ⊢
          exact Or.inr (ih (i + 1) p h)

/-- If some iteration at or after the start both resolves and removes
successfully, the hard loop terminates with outcome deleted once given
enough fuel to reach it. -/
theorem dropLoop_hard_succ_deleted (env : Env) :
    ∀ d i, iterSucc env (i + d) = true →
      (dropLoop true env i (d + 1)).outcome = some Outcome.deleted := by
  intro d
  induction d with
  | zero =>
    intro i h
    rw [iterSucc] at h
    rw [Nat.add_zero] at h
    rw [dropLoop]
    revert h
    cases hres : env.resolve i with
    | none => intro h; simp at h
    | some p =>
      intro h
      simp at h
      simp [h]
  | succ d ih =>
    intro i h
    rw [dropLoop]
    cases hres : env.resolve i with
    | none =>
      have h₁ : iterSucc env (i + 1 + d) = true := by
        rw [show i + 1 + d = i + (d + 1) by omega]; exact h
      simpa using ih (i + 1) h₁
    | some p =>
      cases hr : env.remove i p with
      | true => simp [hr]
      | false =>
        have h₁ : iterSucc env (i + 1 + d) = true := by
          rw [show i + 1 + d = i + (d + 1) by omega]; exact h
        simpa [hr] using ih (i + 1) h₁

/-- If the hard loop reaches any terminal outcome, then some iteration
fully succeeded (resolution and removal both worked). -/
theorem dropLoop_hard_term_succ (env : Env) :
    ∀ fuel i o, (dropLoop true env i fuel).outcome = some o →
      ∃ j, iterSucc env j = true := by
  intro fuel
  induction fuel with
  | zero => intro i o h; simp [dropLoop] at h
  | succ n ih =>
    intro i o h
    rw [dropLoop] at h
    cases hres : env.resolve i with
    | none =>
      rw [hres] at h
      simp at h
      exact ih (i + 1) o h
    | some p =>
      rw [hres] at h
      cases hr : env.remove i p with
      | true => exact ⟨i, by simp [iterSucc, hres, hr]⟩
      | false =>
        simp [hr] at h
        exact ih (i + 1) o h

/-- If current_exe() fails at every iteration, the hard loop never reaches
a terminal outcome no matter how much fuel it is given. -/
theorem dropLoop_hard_noresolve (env : Env) (h : ∀ j, env.resolve j = none) :
    ∀ fuel i, (dropLoop true env i fuel).outcome = none := by
  intro fuel
  induction fuel with
  | zero => intro i; rfl
  | succ n ih =>
    intro i
    rw [dropLoop]
    rw [h i]
    simpa using ih (i + 1)

/-- If no iteration ever fully succeeds, the hard loop consumes all its
fuel: it executes exactly as many iterations as the fuel allows, with no
attempt bound and no early exit. -/
theorem dropLoop_hard_nosucc_iters (env : Env) (h : ∀ j, iterSucc env j = false) :
    ∀ fuel i, (dropLoop true env i fuel).iters = fuel := by
  intro fuel
  induction fuel with
  | zero => intro i; rfl
  | succ n ih =>
    intro i
    rw [dropLoop]
    cases hres : env.resolve i with
    | none => simpa using ih (i + 1)
    | some p =>
      have hr : env.remove i p = false := by
        have := h i
        rw [iterSucc, hres] at this
        exact this
      simpa [hr] using ih (i + 1)

/-- The traced loop computes exactly the same instrumented run as the
untraced loop: the log component is pure output. -/
theorem dropLoopTraced_fst (e : Bool) (env : Env) :
    ∀ fuel i, (dropLoopTraced e env i fuel).1 = dropLoop e env i fuel := by
  intro fuel
  induction fuel with
  | zero => intro i; rfl
  | succ n ih =>
    intro i
    rw [dropLoop, dropLoopTraced]
    cases hres : env.resolve i with
    | none =>
      cases e with
      | false => rfl
      | true => simp [ih (i + 1)]
    | some p =>
      cases hr : env.remove i p with
      | true => simp [hr]
      | false =>
        cases e with
        | false => simp [hr]
        | true => simp [hr, ih (i + 1)]

/-- C1: for a soft guard (ensure = false), if path resolution succeeds but
removal fails, the Drop routine terminates and returns to the caller without
panicking, makes exactly one resolution attempt and one removal attempt,
and deletes nothing (the executable is left intact). -/
theorem soft_removal_failure_abandons (env : Env) (p : Path) (fuel : Nat)
    (hres : env.resolve 0 = some p) (hrem : env.remove 0 p = false)
    (hf : 1 ≤ fuel) :
    dropLoop false env 0 fuel =
      ⟨some Outcome.abandonedSilently, 1, 1, [p], []⟩ := by
  obtain ⟨n, rfl⟩ : ∃ n, fuel = n + 1 := ⟨fuel - 1, by omega⟩
  rw [dropLoop_soft_step]
  simp [dropLoop, hres, hrem]

/-- C1 witness: the soft drop against an environment whose removal always
fails ends silently after one resolution and one removal call. -/
theorem soft_removal_failure_abandons_witness :
    dropLoop false envNoRemove 0 1 =
      ⟨some Outcome.abandonedSilently, 1, 1, ["exe"], []⟩ :=
  soft_removal_failure_abandons envNoRemove "exe" 1 rfl rfl (by decide)

/-- C2: for a soft guard (ensure = false), if path resolution fails, the
Drop routine terminates abnormally through the panic branch; the failure is
not swallowed. -/
theorem soft_resolution_failure_panics (env : Env) (fuel : Nat)
    (hres : env.resolve 0 = none) (hf : 1 ≤ fuel) :
    (dropLoop false env 0 fuel).outcome = some Outcome.panicked := by
  obtain ⟨n, rfl⟩ : ∃ n, fuel = n + 1 := ⟨fuel - 1, by omega⟩
  rw [dropLoop_soft_step]
  simp [dropLoop, hres]

/-- C2 witness: the soft drop against an environment whose resolution
always fails panics. -/
theorem soft_resolution_failure_panics_witness :
    (dropLoop false envNoResolve 0 3).outcome = some Outcome.panicked :=
  soft_resolution_failure_panics envNoResolve 3 rfl (by decide)

/-- C3: for a hard guard (ensure = true), the Drop routine never exits
through the panic branch, whatever the environment and however much fuel
it is given; and if resolution fails at every iteration, it never reaches
a terminal outcome at all (it retries resolution indefinitely). -/
theorem hard_never_panics (env : Env) (fuel i : Nat) :
    (dropLoop true env i fuel).outcome ≠ some Outcome.panicked ∧
      ((∀ j, env.resolve j = none) → (dropLoop true env i fuel).outcome = none) := by
  constructor
  · intro h
    have := dropLoop_hard_outcome env fuel i Outcome.panicked h
    cases this
  · intro h
    exact dropLoop_hard_noresolve env h fuel i

/-- C3 witness: against an environment whose resolution always fails, the
hard drop neither panics nor terminates within five iterations. -/
theorem hard_never_panics_witness :
    (dropLoop true envNoResolve 0 5).outcome ≠ some Outcome.panicked ∧
      (dropLoop true envNoResolve 0 5).outcome = none :=
  ⟨(hard_never_panics envNoResolve 5 0).1,
    (hard_never_panics envNoResolve 5 0).2 (fun _ => rfl)⟩

/-- C4: the hard drop terminates, for some fuel, exactly when some
iteration both resolves the path and removes the file successfully; and
whenever such an iteration exists, the terminal outcome reached is
deleted. -/
theorem hard_terminates_iff (env : Env) :
    ((∃ fuel o, (dropLoop true env 0 fuel).outcome = some o) ↔
      ∃ i, iterSucc env i = true) ∧
    ((∃ i, iterSucc env i = true) →
      ∃ fuel, (dropLoop true env 0 fuel).outcome = some Outcome.deleted) := by
  have hmpr : (∃ i, iterSucc env i = true) →
      ∃ fuel, (dropLoop true env 0 fuel).outcome = some Outcome.deleted := by
    rintro ⟨i, hi⟩
    refine ⟨i + 1, ?_⟩
    have := dropLoop_hard_succ_deleted env i 0 (by simpa using hi)
    simpa using this
  refine ⟨⟨?_, ?_⟩, hmpr⟩
  · rintro ⟨fuel, o, h⟩
    exact dropLoop_hard_term_succ env fuel 0 o h
  · intro h
    obtain ⟨fuel, hf⟩ := hmpr h
    exact ⟨fuel, Outcome.deleted, hf⟩

/-- C4 witness: against an environment whose removal obstruction clears at
iteration 3, the hard drop eventually terminates with the file deleted. -/
theorem hard_terminates_iff_witness :
    ∃ fuel, (dropLoop true (envClearsAt 3) 0 fuel).outcome = some Outcome.deleted :=
  (hard_terminates_iff (envClearsAt 3)).2 ⟨3, rfl⟩

/-- C5: in hard mode every executed iteration performs its own path
resolution (resolve calls equal iterations, so nothing is cached), each
removal call uses the path resolved in that same iteration, and when no
iteration succeeds the loop keeps iterating as long as its fuel allows,
with no bound on the number of attempts. -/
theorem hard_reresolves_every_iteration (env : Env) (i fuel : Nat) :
    (dropLoop true env i fuel).resolveCalls = (dropLoop true env i fuel).iters ∧
    (dropLoop true env i fuel).removeCalls =
      (List.range' i (dropLoop true env i fuel).iters).filterMap env.resolve ∧
    ((∀ j, iterSucc env j = false) → (dropLoop true env i fuel).iters = fuel) :=
  ⟨dropLoop_resolveCalls true env fuel i,
    dropLoop_removeCalls true env fuel i,
    fun h => dropLoop_hard_nosucc_iters env h fuel i⟩

/-- C5 witness: against an environment whose removal always fails, four
units of fuel give four iterations, four resolutions, and four removal
calls each on the freshly resolved path. -/
theorem hard_reresolves_every_iteration_witness :
    (dropLoop true envNoRemove 0 4).resolveCalls = (dropLoop true envNoRemove 0 4).iters ∧
    (dropLoop true envNoRemove 0 4).removeCalls =
      (List.range' 0 (dropLoop true envNoRemove 0 4).iters).filterMap envNoRemove.resolve ∧
    (dropLoop true envNoRemove 0 4).iters = 4 :=
  ⟨(hard_reresolves_every_iteration envNoRemove 0 4).1,
    (hard_reresolves_every_iteration envNoRemove 0 4).2.1,
    (hard_reresolves_every_iteration envNoRemove 0 4).2.2 (fun _ => rfl)⟩

/-- C6: a soft drop always reaches a terminal outcome within one iteration
(it never blocks), a hard drop can only terminate with outcome deleted, and
once any drop has reached a terminal outcome, giving it more fuel changes
nothing (no protocol step follows a terminal outcome, and the outcome
reached is unique). -/
theorem drop_exactly_one_outcome (e : Bool) (env : Env) (fuel m : Nat)
    (hf : 1 ≤ fuel) :
    ((∃ o, (dropLoop false env 0 fuel).outcome = some o) ∧
      dropLoop false env 0 fuel = dropLoop false env 0 1) ∧
    (∀ o, (dropLoop true env 0 fuel).outcome = some o → o = Outcome.deleted) ∧
    (∀ o, (dropLoop e env 0 fuel).outcome = some o → fuel ≤ m →
      dropLoop e env 0 m = dropLoop e env 0 fuel) := by
  obtain ⟨n, rfl⟩ : ∃ n, fuel = n + 1 := ⟨fuel - 1, by omega⟩
  refine ⟨⟨?_, dropLoop_soft_step env 0 n⟩, ?_, ?_⟩
  · rw [dropLoop_soft_step]
    exact dropLoop_soft_terminates env 0
  · intro o h
    exact dropLoop_hard_outcome env (n + 1) 0 o h
  · intro o h hm
    exact dropLoop_stable e env (n + 1) 0 m o hm h

/-- C6 witness: a soft drop against an always-failing-removal environment
reaches a terminal outcome with one unit of fuel. -/
theorem drop_exactly_one_outcome_witness :
    ∃ o, (dropLoop false envNoRemove 0 1).outcome = some o :=
  (drop_exactly_one_outcome false envNoRemove 1 1 (by decide)).1.1

/-- C7: soft() builds a guard with ensure = false and hard() builds a guard
with ensure = true, both via Guard::new, which only stores the flag; with
the tracing feature the constructor additionally emits a single creation
debug event and nothing else, and in this embedding construction involves
no environment interaction at all. -/
theorem constructors_pure :
    soft.ensure = false ∧ hard.ensure = true ∧
    soft = Guard.new false ∧ hard = Guard.new true ∧
    (∀ b, (Guard.newTraced b).1 = Guard.new b) ∧
    (∀ b, (Guard.newTraced b).2 = [LogEvent.debugCreate b]) :=
  ⟨rfl, rfl, rfl, rfl, fun _ => rfl, fun _ => rfl⟩

/-- C8: in every mode, the paths passed to remove_file are exactly the
current_exe() results of the executed iterations (each removal acts on the
path resolved in that same iteration), every deleted path was passed to
remove_file, and every deleted path was resolved by current_exe() with its
removal succeeding at that iteration: no other file is ever touched. -/
theorem removal_frame (e : Bool) (env : Env) (i fuel : Nat) :
    (dropLoop e env i fuel).removeCalls =
      (List.range' i (dropLoop e env i fuel).iters).filterMap env.resolve ∧
    (∀ p, p ∈ (dropLoop e env i fuel).deletedPaths →
      p ∈ (dropLoop e env i fuel).removeCalls) ∧
    (∀ p, p ∈ (dropLoop e env i fuel).deletedPaths →
      ∃ j, env.resolve (i + j) = some p ∧ env.remove (i + j) p = true) :=
  ⟨dropLoop_removeCalls e env fuel i,
    fun p hp => dropLoop_deleted_subset e env fuel i p hp,
    fun p hp => dropLoop_deletedPaths e env fuel i p hp⟩

/-- C8 witness: when the hard drop deletes the executable at iteration 0,
the deleted path was passed to remove_file and was the freshly resolved
path whose removal succeeded. -/
theorem removal_frame_witness :
    "exe" ∈ (dropLoop true (envClearsAt 0) 0 1).removeCalls ∧
    ∃ j, (envClearsAt 0).resolve (0 + j) = some "exe" ∧
      (envClearsAt 0).remove (0 + j) "exe" = true :=
  ⟨(removal_frame true (envClearsAt 0) 0 1).2.1 "exe" (by decide),
    (removal_frame true (envClearsAt 0) 0 1).2.2 "exe" (by decide)⟩

/-- C9: when path resolution fails in soft mode, the Drop routine panics
having made one resolution call and no removal call, so the filesystem is
untouched when the fatal error surfaces. -/
theorem soft_panic_before_removal (env : Env) (fuel : Nat)
    (hres : env.resolve 0 = none) (hf : 1 ≤ fuel) :
    dropLoop false env 0 fuel = ⟨some Outcome.panicked, 1, 1, [], []⟩ := by
  obtain ⟨n, rfl⟩ : ∃ n, fuel = n + 1 := ⟨fuel - 1, by omega⟩
  rw [dropLoop_soft_step]
  simp [dropLoop, hres]

/-- C9 witness: the soft drop against an environment whose resolution
always fails panics with an empty removal log and nothing deleted. -/
theorem soft_panic_before_removal_witness :
    dropLoop false envNoResolve 0 1 = ⟨some Outcome.panicked, 1, 1, [], []⟩ :=
  soft_panic_before_removal envNoResolve 1 rfl (by decide)

/-- C10: compiling the diagnostics in changes no control flow: the traced
loop, the traced Drop entry point, and the traced constructor produce
exactly the same instrumented run (outcome, iterations, resolution calls,
removal calls, deletions) and the same guard as their untraced versions,
for every mode, environment, starting iteration and fuel. -/
theorem tracing_has_no_effect (e : Bool) (env : Env) (i fuel : Nat) :
    (dropLoopTraced e env i fuel).1 = dropLoop e env i fuel ∧
    (∀ g : Guard, (Guard.dropTraced g env fuel).1 = Guard.drop g env fuel) ∧
    (∀ b, (Guard.newTraced b).1 = Guard.new b) :=
  ⟨dropLoopTraced_fst e env fuel i,
    fun g => dropLoopTraced_fst g.ensure env fuel 0,
    fun _ => rfl⟩

end Mortem
